import Mathlib

/-!
Verification of the camera controller in `src/camera.ts` of
niuee/infinite-canvas-tutorial.

The embedding is parametric over a linear ordered field `K` (with a floor
structure for the JavaScript `%` operator), together with the trigonometric
functions `rcos`, `rsin` and the constant `rpi`.  All theorems instantiate
`K := ℝ`, `rcos := Real.cos`, `rsin := Real.sin`, `rpi := Real.pi`, so the
statements are exactly about the program's arithmetic read over the reals.

The vector primitives live in `src/vector.ts`, which is not part of the
sources; they are modelled from the specification (§6, "Consumed interface"),
as marked on each definition.
-/

namespace CameraSpec

/-- A 2D point, used both as coordinate and as free vector (`Point` of the
`vector` module). -/
@[ext]
structure Point (K : Type) where
  x : K
  y : K
deriving DecidableEq, Repr

instance {K : Type} [Zero K] : Inhabited (Point K) :=
  ⟨⟨0, 0⟩⟩

/-- `PositionBoundary`: axis-aligned world-space rectangle. -/
structure PositionBoundary (K : Type) where
  min : Point K
  max : Point K
deriving DecidableEq, Repr

/-- `ZoomLevelBoundary`: scalar zoom range. -/
structure ZoomLevelBoundary (K : Type) where
  min : K
  max : K
deriving DecidableEq, Repr

/-- `RotationBoundary`.  The source field `end` is a Lean keyword and is
rendered `endAngle` here. -/
structure RotationBoundary (K : Type) where
  start : K
  endAngle : K
  positiveDirection : Bool
  startForTieBreak : Bool
deriving DecidableEq, Repr

/-- The result of a segment-segment intersection query: no intersection, a
single intersection point, or a degenerate interval overlap (source tags:
`intersects: false`, type `"point"`, type `"interval"`). -/
inductive IntersectionResult (K : Type) where
  | none
  | point (intersectionPoint : Point K)
  | interval (intervalStartPoint intervalEndPoint : Point K)
deriving DecidableEq, Repr

section Defs

variable {K : Type} [LinearOrderedField K] [FloorRing K]
variable (rcos rsin : K → K) (rpi : K)

/-- Modelled from the spec: `vectorAddition` from `src/vector.ts` (absent from
the sources); componentwise vector addition (§6 "vector add/subtract"). -/
def vectorAddition (a b : Point K) : Point K :=
  ⟨a.x + b.x, a.y + b.y⟩

/-- Modelled from the spec: `vectorSubtraction` from `src/vector.ts` (absent
from the sources); componentwise vector subtraction. -/
def vectorSubtraction (a b : Point K) : Point K :=
  ⟨a.x - b.x, a.y - b.y⟩

/-- Modelled from the spec: `multiplyByScalar` from `src/vector.ts` (absent
from the sources); componentwise scalar multiplication. -/
def multiplyByScalar (v : Point K) (s : K) : Point K :=
  ⟨v.x * s, v.y * s⟩

/-- Modelled from the spec: `dotProduct` from `src/vector.ts` (absent from the
sources). -/
def dotProduct (a b : Point K) : K :=
  a.x * b.x + a.y * b.y

/-- Modelled from the spec: `rotateVector` from `src/vector.ts` (absent from
the sources); counterclockwise rotation of a vector by `angle` radians (§6
"vector rotation by angle"). -/
def rotateVector (v : Point K) (angle : K) : Point K :=
  ⟨rcos angle * v.x - rsin angle * v.y, rsin angle * v.x + rcos angle * v.y⟩

/-- 2D cross product, used by the modelled segment intersection. -/
def cross (a b : Point K) : K :=
  a.x * b.y - a.y * b.x

/-- Modelled from the spec: `getLineSegmentIntersection` from `src/vector.ts`
(absent from the sources).  Per §6 it returns a tagged result: no
intersection, a single intersection point, or a degenerate collinear
"interval" overlap with distinguishable endpoints.  Modelled as exact
segment–segment intersection of the closed segments `p1p2` and `q1q2`
via the standard parametric method. -/
def getLineSegmentIntersection (p1 p2 q1 q2 : Point K) : IntersectionResult K :=
  let r := vectorSubtraction p2 p1
  let s := vectorSubtraction q2 q1
  let rxs := cross r s
  let qp := vectorSubtraction q1 p1
  if rxs = 0 then
    if cross qp r = 0 then
      -- collinear: project the second segment onto the first
      let rr := dotProduct r r
      if rr = 0 then
        -- first segment is a single point
        let ss := dotProduct s s
        if ss = 0 then
          if p1 = q1 then .point p1 else .none
        else
          let tq := dotProduct (vectorSubtraction p1 q1) s / ss
          if 0 ≤ tq ∧ tq ≤ 1 then .point p1 else .none
      else
        let t0 := dotProduct qp r / rr
        let t1 := dotProduct (vectorSubtraction q2 p1) r / rr
        let lo := max (min t0 t1) 0
        let hi := min (max t0 t1) 1
        if lo > hi then .none
        else if lo = hi then .point (vectorAddition p1 (multiplyByScalar r lo))
        else .interval (vectorAddition p1 (multiplyByScalar r lo))
                       (vectorAddition p1 (multiplyByScalar r hi))
    else .none
  else
    let t := cross qp s / rxs
    let u := cross qp r / rxs
    if 0 ≤ t ∧ t ≤ 1 ∧ 0 ≤ u ∧ u ≤ 1 then
      .point (vectorAddition p1 (multiplyByScalar r t))
    else .none

/-- `withinPositionBoundary` (camera.ts:156). -/
def withinPositionBoundary (destination : Point K) (positionBoundary : PositionBoundary K) : Bool :=
  if destination.x > positionBoundary.max.x ∨ destination.x < positionBoundary.min.x then
    false
  else if destination.y > positionBoundary.max.y ∨ destination.y < positionBoundary.min.y then
    false
  else
    true

/-- `simpleClamping` (camera.ts:166). -/
def simpleClamping (destination : Point K) (positionBoundary : PositionBoundary K) : Point K :=
  if withinPositionBoundary destination positionBoundary then
    destination
  else
    ⟨max (min destination.x positionBoundary.max.x) positionBoundary.min.x,
     max (min destination.y positionBoundary.max.y) positionBoundary.min.y⟩

/-- `clampingV2` (camera.ts:182).  The two `throw` sites are modelled as
`Option.none`; the `console.log` calls in the corner branches are dropped. -/
def clampingV2 (origin destination : Point K) (positionBoundary : PositionBoundary K) :
    Option (Point K) :=
  if withinPositionBoundary destination positionBoundary then
    some destination
  else
    let topRight : Point K := ⟨positionBoundary.max.x, positionBoundary.max.y⟩
    let bottomRight : Point K := ⟨positionBoundary.max.x, positionBoundary.min.y⟩
    let topLeft : Point K := ⟨positionBoundary.min.x, positionBoundary.max.y⟩
    let bottomLeft : Point K := ⟨positionBoundary.min.x, positionBoundary.min.y⟩
    let surpassedTop := destination.y > topLeft.y
    let surpassedRight := destination.x > topRight.x
    let surpassedBottom := destination.y < bottomRight.y
    let surpassedLeft := destination.x < bottomLeft.x
    if surpassedTop ∧ surpassedRight then some topRight
    else if surpassedTop ∧ surpassedLeft then some topLeft
    else if surpassedBottom ∧ surpassedRight then some bottomRight
    else if surpassedBottom ∧ surpassedLeft then some bottomLeft
    else
      let edge : Point K × Point K :=
        if surpassedTop then (topLeft, topRight)
        else if surpassedBottom then (bottomLeft, bottomRight)
        else if surpassedLeft then (bottomLeft, topLeft)
        else (bottomRight, topRight)
      match getLineSegmentIntersection origin destination edge.1 edge.2 with
      | .point p => some p
      | .interval _ e => some e
      | .none => none

/-- `transformViewPort2WorldSpaceWithCameraAttributes` (camera.ts:246). -/
def transformViewPort2WorldSpaceWithCameraAttributes (point cameraPosition : Point K)
    (cameraZoomLevel cameraRotation : K) : Point K :=
  let scaledBack := multiplyByScalar point (1 / cameraZoomLevel)
  let rotatedBack := rotateVector rcos rsin scaledBack cameraRotation
  vectorAddition rotatedBack cameraPosition

/-- `viewPortWithinPositionBoundary` (camera.ts:253). -/
def viewPortWithinPositionBoundary (viewPortWidth viewPortHeight : K) (cameraPosition : Point K)
    (cameraZoomLevel cameraRotation : K) (positionBoundary : PositionBoundary K) : Bool :=
  let topLeftCorner : Point K := ⟨-viewPortWidth / 2, viewPortHeight / 2⟩
  let topRightCorner : Point K := ⟨viewPortWidth / 2, viewPortHeight / 2⟩
  let bottomLeftCorner : Point K := ⟨-viewPortWidth / 2, -viewPortHeight / 2⟩
  let bottomRightCorner : Point K := ⟨viewPortWidth / 2, -viewPortHeight / 2⟩
  let topLeftCornerTransformed := transformViewPort2WorldSpaceWithCameraAttributes rcos rsin
    topLeftCorner cameraPosition cameraZoomLevel cameraRotation
  let topRightCornerTransformed := transformViewPort2WorldSpaceWithCameraAttributes rcos rsin
    topRightCorner cameraPosition cameraZoomLevel cameraRotation
  let bottomLeftCornerTransformed := transformViewPort2WorldSpaceWithCameraAttributes rcos rsin
    bottomLeftCorner cameraPosition cameraZoomLevel cameraRotation
  let bottomRightCornerTransformed := transformViewPort2WorldSpaceWithCameraAttributes rcos rsin
    bottomRightCorner cameraPosition cameraZoomLevel cameraRotation
  withinPositionBoundary topLeftCornerTransformed positionBoundary &&
    withinPositionBoundary topRightCornerTransformed positionBoundary &&
    withinPositionBoundary bottomLeftCornerTransformed positionBoundary &&
    withinPositionBoundary bottomRightCornerTransformed positionBoundary

/-- One iteration of the `diffs.forEach` body in `clampingEntireViewPort`
(camera.ts:295): state is `(maxXDiff, maxYDiff, delta)`.  The source mutates
`delta` (aliasing `diffs[0]`); since `diffs[0]` is visited first and the
comparisons are strict, the aliasing never changes a value that is later
read, so the value-level fold is observationally identical. -/
def maxDiffStep (st : K × K × Point K) (diff : Point K) : K × K × Point K :=
  let st1 : K × Point K :=
    if |diff.x| > st.1 then (|diff.x|, ⟨diff.x, st.2.2.y⟩) else (st.1, st.2.2)
  let st2 : K × Point K :=
    if |diff.y| > st.2.1 then (|diff.y|, ⟨st1.2.x, diff.y⟩) else (st.2.1, st1.2)
  (st1.1, st2.1, st2.2)

/-- The four corner deltas (`clamped - transformed`) computed inside
`clampingEntireViewPort` (camera.ts:286-291), exposed for the statements. -/
def cornerDiffs (viewPortWidth viewPortHeight : K) (targetCameraPosition : Point K)
    (cameraRotation cameraZoomLevel : K) (positionBoundary : PositionBoundary K) :
    List (Point K) :=
  let topLeftCorner : Point K := ⟨-viewPortWidth / 2, viewPortHeight / 2⟩
  let topRightCorner : Point K := ⟨viewPortWidth / 2, viewPortHeight / 2⟩
  let bottomLeftCorner : Point K := ⟨-viewPortWidth / 2, -viewPortHeight / 2⟩
  let bottomRightCorner : Point K := ⟨viewPortWidth / 2, -viewPortHeight / 2⟩
  let topLeftCornerTransformed := transformViewPort2WorldSpaceWithCameraAttributes rcos rsin
    topLeftCorner targetCameraPosition cameraZoomLevel cameraRotation
  let topRightCornerTransformed := transformViewPort2WorldSpaceWithCameraAttributes rcos rsin
    topRightCorner targetCameraPosition cameraZoomLevel cameraRotation
  let bottomLeftCornerTransformed := transformViewPort2WorldSpaceWithCameraAttributes rcos rsin
    bottomLeftCorner targetCameraPosition cameraZoomLevel cameraRotation
  let bottomRightCornerTransformed := transformViewPort2WorldSpaceWithCameraAttributes rcos rsin
    bottomRightCorner targetCameraPosition cameraZoomLevel cameraRotation
  [vectorSubtraction (simpleClamping topLeftCornerTransformed positionBoundary)
      topLeftCornerTransformed,
   vectorSubtraction (simpleClamping topRightCornerTransformed positionBoundary)
      topRightCornerTransformed,
   vectorSubtraction (simpleClamping bottomLeftCornerTransformed positionBoundary)
      bottomLeftCornerTransformed,
   vectorSubtraction (simpleClamping bottomRightCornerTransformed positionBoundary)
      bottomRightCornerTransformed]

/-- `clampingEntireViewPort` (camera.ts:267). -/
def clampingEntireViewPort (viewPortWidth viewPortHeight : K) (targetCameraPosition : Point K)
    (cameraRotation cameraZoomLevel : K) (positionBoundary : PositionBoundary K) : Point K :=
  if viewPortWithinPositionBoundary rcos rsin viewPortWidth viewPortHeight targetCameraPosition
      cameraZoomLevel cameraRotation positionBoundary then
    targetCameraPosition
  else
    let diffs := cornerDiffs rcos rsin viewPortWidth viewPortHeight targetCameraPosition
      cameraRotation cameraZoomLevel positionBoundary
    let d0 := diffs.headI
    let res := diffs.foldl maxDiffStep (|d0.x|, |d0.y|, d0)
    vectorAddition res.2.2 targetCameraPosition

/-- `withinZoomLevelBoundary` (camera.ts:309). -/
def withinZoomLevelBoundary (zoomLevel : K) (zoomLevelBoundary : ZoomLevelBoundary K) : Bool :=
  decide (zoomLevel ≤ zoomLevelBoundary.max ∧ zoomLevel ≥ zoomLevelBoundary.min)

/-- `getMinZoomLevel` (camera.ts:313). -/
def getMinZoomLevel (viewPortWidth viewPortHeight : K) (positionBoundary : PositionBoundary K) :
    K :=
  let minZoomLevelBasedOnWidth := viewPortWidth / (positionBoundary.max.x - positionBoundary.min.x)
  let minZoomLevelBasedOnHeight :=
    viewPortHeight / (positionBoundary.max.y - positionBoundary.min.y)
  if minZoomLevelBasedOnWidth > minZoomLevelBasedOnHeight then minZoomLevelBasedOnWidth
  else minZoomLevelBasedOnHeight

/-- Truncation toward zero, the rounding used by the JavaScript `%` operator. -/
def truncTowardZero (x : K) : ℤ :=
  if 0 ≤ x then ⌊x⌋ else ⌈x⌉

/-- The JavaScript remainder operator `x % y` (sign of the dividend). -/
def jsMod (x y : K) : K :=
  x - y * ((truncTowardZero (x / y) : ℤ) : K)

/-- `normalizeAngle` (camera.ts:338). -/
def normalizeAngle (angle : K) : K :=
  let normalizedAngle := jsMod angle (2 * rpi)
  if normalizedAngle ≥ 0 then normalizedAngle else normalizedAngle + rpi * 2

/-- `angleSpan` (camera.ts:355). -/
def angleSpan (fromAngle toAngle : K) : K :=
  let normalizedFrom := normalizeAngle rpi fromAngle
  let normalizedTo := normalizeAngle rpi toAngle
  let diff := normalizedTo - normalizedFrom
  if |diff| ≤ rpi then diff else diff - rpi * 2

/-- `rotationWithinBoundary` (camera.ts:366). -/
def rotationWithinBoundary (rotation : K) (rotationBoundary : RotationBoundary K) : Bool :=
  let normalizedRotation := normalizeAngle rpi rotation
  let angleFromStart0 := normalizedRotation - rotationBoundary.start
  let angleFromStart1 :=
    if angleFromStart0 < 0 then angleFromStart0 + rpi * 2 else angleFromStart0
  let angleFromStart :=
    if ¬rotationBoundary.positiveDirection ∧ angleFromStart1 > 0 then
      rpi * 2 - angleFromStart1
    else angleFromStart1
  let angleRange0 := rotationBoundary.endAngle - rotationBoundary.start
  let angleRange1 := if angleRange0 < 0 then angleRange0 + rpi * 2 else angleRange0
  let angleRange :=
    if ¬rotationBoundary.positiveDirection ∧ angleRange1 > 0 then rpi * 2 - angleRange1
    else angleRange1
  decide (angleRange ≥ angleFromStart)

/-- `clampRotation` (camera.ts:386). -/
def clampRotation (rotation : K) (rotationBoundary : RotationBoundary K) : K :=
  if rotationWithinBoundary rpi rotation rotationBoundary then
    rotation
  else
    let angleFromStart := angleSpan rpi rotationBoundary.start rotation
    let angleFromEnd := angleSpan rpi rotationBoundary.endAngle rotation
    if |angleFromStart| < |angleFromEnd| then rotationBoundary.start
    else if |angleFromStart| = |angleFromEnd| ∧ rotationBoundary.startForTieBreak then
      rotationBoundary.start
    else rotationBoundary.endAngle

end Defs

/-- The snapshot `{position, zoomLevel, rotation}` passed with every
notification. -/
structure CameraSnapshot (K : Type) where
  position : Point K
  zoomLevel : K
  rotation : K
deriving DecidableEq, Repr

/-- An observer notification (`CameraObserver.notifyPan` / `notifyZoom` /
`notifyRotate`).  A mutator returns `none` when it rejects, `some` the single
notification it fires when it accepts. -/
inductive CameraEvent (K : Type) where
  | pan (origin destination : Point K) (snapshot : CameraSnapshot K)
  | zoom (origin destination : K) (snapshot : CameraSnapshot K)
  | rotate (origin destination : K) (snapshot : CameraSnapshot K)
deriving DecidableEq, Repr

/-- The `Camera` class state (camera.ts:21). -/
structure Camera (K : Type) where
  position : Point K
  zoomLevel : K
  rotation : K
  positionBoundary : PositionBoundary K
  zoomLevelBoundary : ZoomLevelBoundary K
  rotationBoundary : Option (RotationBoundary K)
  viewPortWidth : K
  viewPortHeight : K
  limitEntireViewPort : Bool
deriving DecidableEq, Repr

section CameraDefs

variable {K : Type} [LinearOrderedField K] [FloorRing K]
variable (rcos rsin : K → K) (rpi : K)

/-- The `Camera` constructor (camera.ts:36): position `(0,0)`, zoom `1`,
rotation `0`, `limitEntireViewPort` false, boundaries stored unchecked. -/
def mkCamera (viewPortWidth viewPortHeight : K) (positionBoundary : PositionBoundary K)
    (zoomLevelBoundary : ZoomLevelBoundary K) : Camera K :=
  { position := ⟨0, 0⟩
    zoomLevel := 1
    rotation := 0
    positionBoundary := positionBoundary
    zoomLevelBoundary := zoomLevelBoundary
    rotationBoundary := Option.none
    viewPortWidth := viewPortWidth
    viewPortHeight := viewPortHeight
    limitEntireViewPort := false }

/-- The `rotationBoundary` setter (camera.ts:65).  Note: the source computes
`validatedRotationBoundary` with normalized angles but then assigns the raw
`rotationBoundary` on line 73; the embedding reproduces that faithfully (the
normalized copy is computed and dropped). -/
def Camera.setRotationBoundary (cam : Camera K) (rotationBoundary : RotationBoundary K) :
    Camera K :=
  let validatedStart :=
    if rotationBoundary.start > rpi * 2 ∨ rotationBoundary.start < 0 then
      normalizeAngle rpi rotationBoundary.start
    else rotationBoundary.start
  let validatedEnd :=
    if rotationBoundary.endAngle > rpi * 2 ∨ rotationBoundary.endAngle < 0 then
      normalizeAngle rpi rotationBoundary.endAngle
    else rotationBoundary.endAngle
  let validatedRotationBoundary : RotationBoundary K :=
    { rotationBoundary with start := validatedStart, endAngle := validatedEnd }
  let _ := validatedRotationBoundary
  { cam with rotationBoundary := some rotationBoundary }

/-- The `zoomLevelBoundary` setter (camera.ts:56): swaps inverted bounds. -/
def Camera.setZoomLevelBoundary (cam : Camera K) (zoomLevelBoundary : ZoomLevelBoundary K) :
    Camera K :=
  if zoomLevelBoundary.min > zoomLevelBoundary.max then
    { cam with zoomLevelBoundary := ⟨zoomLevelBoundary.max, zoomLevelBoundary.min⟩ }
  else
    { cam with zoomLevelBoundary := zoomLevelBoundary }

/-- `Camera.setPosition` (camera.ts:88). -/
def Camera.setPosition (cam : Camera K) (destination : Point K) :
    Camera K × Option (CameraEvent K) :=
  if cam.limitEntireViewPort &&
      !(viewPortWithinPositionBoundary rcos rsin cam.viewPortWidth cam.viewPortHeight
        destination cam.zoomLevel cam.rotation cam.positionBoundary) then
    (cam, Option.none)
  else if !(withinPositionBoundary destination cam.positionBoundary) then
    (cam, Option.none)
  else
    ({ cam with position := destination },
     some (.pan cam.position destination ⟨destination, cam.zoomLevel, cam.rotation⟩))

/-- `Camera.setPositionBy` (camera.ts:100). -/
def Camera.setPositionBy (cam : Camera K) (offset : Point K) :
    Camera K × Option (CameraEvent K) :=
  let destination := vectorAddition cam.position offset
  if cam.limitEntireViewPort then
    cam.setPosition rcos rsin
      (clampingEntireViewPort rcos rsin cam.viewPortWidth cam.viewPortHeight destination
        cam.rotation cam.zoomLevel cam.positionBoundary)
  else
    cam.setPosition rcos rsin (simpleClamping destination cam.positionBoundary)

/-- `Camera.setZoomLevel` (camera.ts:114). -/
def Camera.setZoomLevel (cam : Camera K) (targetZoom : K) :
    Camera K × Option (CameraEvent K) :=
  if !(withinZoomLevelBoundary targetZoom cam.zoomLevelBoundary) then
    (cam, Option.none)
  else
    ({ cam with zoomLevel := targetZoom },
     some (.zoom cam.zoomLevel targetZoom ⟨cam.position, targetZoom, cam.rotation⟩))

/-- `Camera.setZoomLevelBy` (camera.ts:110). -/
def Camera.setZoomLevelBy (cam : Camera K) (deltaZoomLevel : K) :
    Camera K × Option (CameraEvent K) :=
  cam.setZoomLevel (cam.zoomLevel + deltaZoomLevel)

/-- `Camera.setRotation` (camera.ts:123). -/
def Camera.setRotation (cam : Camera K) (rotation : K) :
    Camera K × Option (CameraEvent K) :=
  match cam.rotationBoundary with
  | some b =>
    if !(rotationWithinBoundary rpi rotation b) then
      (cam, Option.none)
    else
      ({ cam with rotation := normalizeAngle rpi rotation },
       some (.rotate cam.rotation (normalizeAngle rpi rotation)
        ⟨cam.position, cam.zoomLevel, normalizeAngle rpi rotation⟩))
  | Option.none =>
    ({ cam with rotation := normalizeAngle rpi rotation },
     some (.rotate cam.rotation (normalizeAngle rpi rotation)
      ⟨cam.position, cam.zoomLevel, normalizeAngle rpi rotation⟩))

/-- `Camera.setRotationBy` (camera.ts:132). -/
def Camera.setRotationBy (cam : Camera K) (deltaRotation : K) :
    Camera K × Option (CameraEvent K) :=
  let targetAngle := normalizeAngle rpi (cam.rotation + deltaRotation)
  match cam.rotationBoundary with
  | some b => cam.setRotation rpi (clampRotation rpi targetAngle b)
  | Option.none => cam.setRotation rpi targetAngle

/-- `Camera.transformViewPort2WorldSpace` (camera.ts:140). -/
def Camera.transformViewPort2WorldSpace (cam : Camera K) (point : Point K) : Point K :=
  transformViewPort2WorldSpaceWithCameraAttributes rcos rsin point cam.position cam.zoomLevel
    cam.rotation

/-- `Camera.transformWorldSpace2ViewPort` (camera.ts:144). -/
def Camera.transformWorldSpace2ViewPort (cam : Camera K) (point : Point K) : Point K :=
  let withOffset := vectorSubtraction point cam.position
  let scaled := multiplyByScalar withOffset cam.zoomLevel
  rotateVector rcos rsin scaled (-cam.rotation)

/-- `Camera.transformVector2WorldSpace` (camera.ts:151). -/
def Camera.transformVector2WorldSpace (cam : Camera K) (vector : Point K) : Point K :=
  rotateVector rcos rsin (multiplyByScalar vector (1 / cam.zoomLevel)) cam.rotation

end CameraDefs

/-! ### Concrete instances used by witnesses and counterexamples -/

/-- A camera with the default boundaries, a rotation boundary on the arc
`[0, arcEnd]`, and `limitEntireViewPort` off. -/
def exampleCamera (K : Type) [LinearOrderedField K] (arcEnd : K) : Camera K :=
  ⟨⟨0, 0⟩, 1, 0, ⟨⟨-1000, -1000⟩, ⟨1000, 1000⟩⟩, ⟨1/10, 10⟩,
    some ⟨0, arcEnd, true, true⟩, 500, 500, false⟩

/-- A camera with `limitEntireViewPort` on and the default `±1000` position
boundary. -/
def exampleCameraLimited (K : Type) [LinearOrderedField K] : Camera K :=
  ⟨⟨0, 0⟩, 1, 0, ⟨⟨-1000, -1000⟩, ⟨1000, 1000⟩⟩, ⟨1/10, 10⟩,
    Option.none, 500, 500, true⟩

/-- A camera with `limitEntireViewPort` on and a tight `±300` position
boundary, used to show containment is not preserved by zoom or rotation. -/
def exampleCameraTight (K : Type) [LinearOrderedField K] : Camera K :=
  ⟨⟨0, 0⟩, 1, 0, ⟨⟨-300, -300⟩, ⟨300, 300⟩⟩, ⟨1/10, 10⟩,
    Option.none, 500, 500, true⟩

/-! ### Helper lemmas -/

section Helpers

variable {K : Type} [LinearOrderedField K]

theorem withinPositionBoundary_iff {d : Point K} {b : PositionBoundary K} :
    withinPositionBoundary d b = true ↔
      d.x ≤ b.max.x ∧ b.min.x ≤ d.x ∧ d.y ≤ b.max.y ∧ b.min.y ≤ d.y := by
  unfold withinPositionBoundary
  split_ifs with h1 h2
  · simp only [false_iff]
    rintro ⟨hx1, hx2, hy1, hy2⟩
    rcases h1 with h | h <;> linarith
  · simp only [false_iff]
    rintro ⟨hx1, hx2, hy1, hy2⟩
    rcases h2 with h | h <;> linarith
  · push_neg at h1 h2
    simp only [true_iff]
    exact ⟨h1.1, h1.2, h2.1, h2.2⟩

theorem withinPositionBoundary_eq_false {d : Point K} {b : PositionBoundary K} :
    withinPositionBoundary d b = false ↔
      ¬(d.x ≤ b.max.x ∧ b.min.x ≤ d.x ∧ d.y ≤ b.max.y ∧ b.min.y ≤ d.y) := by
  rw [Bool.eq_false_iff, Ne]
  exact not_congr withinPositionBoundary_iff

theorem withinZoomLevelBoundary_iff {z : K} {b : ZoomLevelBoundary K} :
    withinZoomLevelBoundary z b = true ↔ z ≤ b.max ∧ b.min ≤ z := by
  unfold withinZoomLevelBoundary
  simp [ge_iff_le]

end Helpers

section FloorHelpers

variable {K : Type} [LinearOrderedField K] [FloorRing K]

theorem truncTowardZero_eq_zero {x : K} (h0 : -1 < x) (h1 : x < 1) :
    truncTowardZero x = 0 := by
  unfold truncTowardZero
  split_ifs with h
  · rw [Int.floor_eq_zero_iff]
    exact Set.mem_Ico.mpr ⟨h, h1⟩
  · push_neg at h
    rw [Int.ceil_eq_zero_iff]
    exact Set.mem_Ioc.mpr ⟨h0, h.le⟩

theorem jsMod_eq_self {x y : K} (hy : 0 < y) (hlo : -y < x) (hhi : x < y) :
    jsMod x y = x := by
  unfold jsMod
  rw [truncTowardZero_eq_zero (by rw [neg_lt, ← neg_div, div_lt_one hy]; linarith)
    (by rw [div_lt_one hy]; exact hhi)]
  simp

theorem jsMod_lt {x y : K} (hy : 0 < y) : jsMod x y < y := by
  unfold jsMod truncTowardZero
  have hx : y * (x / y) = x := by field_simp
  split_ifs with h
  · have h1 : x / y < ((⌊x / y⌋ : ℤ) : K) + 1 := Int.lt_floor_add_one (x / y)
    have h2 : y * (x / y) < y * (((⌊x / y⌋ : ℤ) : K) + 1) := mul_lt_mul_of_pos_left h1 hy
    rw [hx, mul_add, mul_one] at h2
    linarith
  · have h1 : x / y ≤ ((⌈x / y⌉ : ℤ) : K) := Int.le_ceil (x / y)
    have h2 : y * (x / y) ≤ y * ((⌈x / y⌉ : ℤ) : K) := mul_le_mul_of_nonneg_left h1 hy.le
    rw [hx] at h2
    linarith

theorem neg_lt_jsMod {x y : K} (hy : 0 < y) : -y < jsMod x y := by
  unfold jsMod truncTowardZero
  have hx : y * (x / y) = x := by field_simp
  split_ifs with h
  · have h1 : ((⌊x / y⌋ : ℤ) : K) ≤ x / y := Int.floor_le (x / y)
    have h2 : y * ((⌊x / y⌋ : ℤ) : K) ≤ y * (x / y) := mul_le_mul_of_nonneg_left h1 hy.le
    rw [hx] at h2
    linarith
  · have h1 : ((⌈x / y⌉ : ℤ) : K) < x / y + 1 := Int.ceil_lt_add_one (x / y)
    have h2 : y * ((⌈x / y⌉ : ℤ) : K) < y * (x / y + 1) := mul_lt_mul_of_pos_left h1 hy
    rw [mul_add, mul_one, hx] at h2
    linarith

end FloorHelpers

section AngleHelpers

theorem normalizeAngle_eq_self {a : ℝ} (h0 : 0 ≤ a) (h1 : a < 2 * Real.pi) :
    normalizeAngle Real.pi a = a := by
  have hπ := Real.pi_pos
  unfold normalizeAngle
  rw [jsMod_eq_self (by linarith) (by linarith) h1, if_pos (ge_iff_le.mpr h0)]

theorem normalizeAngle_nonneg (a : ℝ) : 0 ≤ normalizeAngle Real.pi a := by
  have hπ := Real.pi_pos
  simp only [normalizeAngle]
  split_ifs with h
  · exact h
  · push_neg at h
    have := neg_lt_jsMod (x := a) (y := 2 * Real.pi) (by linarith)
    linarith

theorem normalizeAngle_lt (a : ℝ) : normalizeAngle Real.pi a < 2 * Real.pi := by
  have hπ := Real.pi_pos
  simp only [normalizeAngle]
  split_ifs with h
  · have := jsMod_lt (x := a) (y := 2 * Real.pi) (by linarith)
    linarith
  · push_neg at h
    linarith

/-- Evaluation of `rotationWithinBoundary` for a positive-direction boundary
when neither wrap correction applies. -/
theorem rotationWithinBoundary_pos_eval (r : ℝ) (b : RotationBoundary ℝ)
    (hb : b.positiveDirection = true)
    (hs : 0 ≤ normalizeAngle Real.pi r - b.start)
    (hr : 0 ≤ b.endAngle - b.start) :
    rotationWithinBoundary Real.pi r b =
      decide (b.endAngle - b.start ≥ normalizeAngle Real.pi r - b.start) := by
  unfold rotationWithinBoundary
  rw [hb]
  simp only [not_true_eq_false, false_and, if_false]
  rw [if_neg (not_lt.mpr hs), if_neg (not_lt.mpr hr)]

/-- The arc start is always inside a boundary whose angles are normalized. -/
theorem rotationWithinBoundary_start (b : RotationBoundary ℝ)
    (hs0 : 0 ≤ b.start) (hs1 : b.start < 2 * Real.pi)
    (he0 : 0 ≤ b.endAngle) (he1 : b.endAngle < 2 * Real.pi) :
    rotationWithinBoundary Real.pi b.start b = true := by
  have hπ := Real.pi_pos
  have hn := normalizeAngle_eq_self hs0 hs1
  simp only [rotationWithinBoundary, hn, sub_self, lt_self_iff_false, if_false, gt_iff_lt,
    and_false]
  rw [decide_eq_true_eq]
  split_ifs with h1 h2 <;> simp only [ge_iff_le] <;> push_neg at * <;> linarith

/-- The arc end is always inside a boundary whose end angle is normalized. -/
theorem rotationWithinBoundary_endAngle (b : RotationBoundary ℝ)
    (he0 : 0 ≤ b.endAngle) (he1 : b.endAngle < 2 * Real.pi) :
    rotationWithinBoundary Real.pi b.endAngle b = true := by
  have hn := normalizeAngle_eq_self he0 he1
  simp only [rotationWithinBoundary, hn]
  simp [le_refl]

/-- A segment from a point `o` inside the horizontal slab `[x0, x1]` and on
or below the line `y = ye` to a point `d` inside the slab and strictly above
the line (or the mirrored situation) meets the edge segment from `(x0, ye)`
to `(x1, ye)` in a single point. -/
theorem getLineSegmentIntersection_horizontal (o d : Point ℝ) (x0 x1 ye : ℝ)
    (hx01 : x0 ≤ x1) (hox : x0 ≤ o.x) (hox2 : o.x ≤ x1) (hdx : x0 ≤ d.x) (hdx2 : d.x ≤ x1)
    (hcross : (o.y ≤ ye ∧ ye < d.y) ∨ (d.y < ye ∧ ye ≤ o.y)) :
    ∃ pt : Point ℝ,
      getLineSegmentIntersection o d ⟨x0, ye⟩ ⟨x1, ye⟩ = .point pt := by
  obtain ⟨ox, oy⟩ := o
  obtain ⟨dx, dy⟩ := d
  dsimp only at hox hox2 hdx hdx2 hcross
  have hAne : dy - oy ≠ 0 := by
    rcases hcross with ⟨h1, h2⟩ | ⟨h1, h2⟩
    · exact sub_ne_zero.mpr (by linarith)
    · exact sub_ne_zero.mpr (by linarith)
  rcases eq_or_lt_of_le hx01 with heq | hlt
  · subst heq
    have hoxe : ox = x0 := le_antisymm hox2 hox
    have hdxe : dx = x0 := le_antisymm hdx2 hdx
    subst hoxe
    subst hdxe
    simp only [getLineSegmentIntersection, vectorSubtraction, vectorAddition, multiplyByScalar,
      cross, dotProduct, sub_self, mul_zero, zero_mul, zero_sub, sub_zero, neg_zero, zero_add,
      add_zero, min_self, max_self]
    simp only [if_true]
    rw [if_neg (mul_ne_zero hAne hAne)]
    have ht0a : 0 ≤ (ye - oy) * (dy - oy) / ((dy - oy) * (dy - oy)) := by
      apply div_nonneg _ (mul_self_nonneg _)
      rcases hcross with ⟨h1, h2⟩ | ⟨h1, h2⟩ <;> nlinarith
    have ht0b : (ye - oy) * (dy - oy) / ((dy - oy) * (dy - oy)) ≤ 1 := by
      rw [div_le_one (by rcases hcross with ⟨h1, h2⟩ | ⟨h1, h2⟩ <;> nlinarith :
        (0 : ℝ) < (dy - oy) * (dy - oy))]
      rcases hcross with ⟨h1, h2⟩ | ⟨h1, h2⟩ <;> nlinarith
    rw [sup_eq_left.mpr ht0a, inf_eq_left.mpr ht0b]
    rw [if_neg (lt_irrefl _), if_pos rfl]
    exact ⟨_, rfl⟩
  · have hne : x1 - x0 ≠ 0 := sub_ne_zero.mpr (ne_of_gt hlt)
    simp only [getLineSegmentIntersection, vectorSubtraction, vectorAddition, multiplyByScalar,
      cross, dotProduct, sub_self, mul_zero, zero_mul, zero_sub]
    have hrxs : ¬(-((dy - oy) * (x1 - x0)) = 0) := by
      simp only [neg_eq_zero, mul_eq_zero, not_or]
      exact ⟨hAne, hne⟩
    rw [if_neg hrxs]
    have htval : -((ye - oy) * (x1 - x0)) / -((dy - oy) * (x1 - x0)) =
        (ye - oy) / (dy - oy) := by
      rw [neg_div_neg_eq, mul_div_mul_right _ _ hne]
    rw [htval]
    have hc1 : 0 ≤ (ye - oy) / (dy - oy) := by
      rw [div_nonneg_iff]
      rcases hcross with ⟨h1, h2⟩ | ⟨h1, h2⟩
      · exact Or.inl ⟨by linarith, by linarith⟩
      · exact Or.inr ⟨by linarith, by linarith⟩
    have hc2 : (ye - oy) / (dy - oy) ≤ 1 := by
      rw [div_le_one_iff]
      rcases hcross with ⟨h1, h2⟩ | ⟨h1, h2⟩
      · exact Or.inl ⟨by linarith, by linarith⟩
      · exact Or.inr (Or.inr ⟨by linarith, by linarith⟩)
    have hc3 : 0 ≤ ((x0 - ox) * (dy - oy) - (ye - oy) * (dx - ox)) /
        -((dy - oy) * (x1 - x0)) := by
      rw [div_nonneg_iff]
      rcases hcross with ⟨h1, h2⟩ | ⟨h1, h2⟩
      · refine Or.inr ⟨?_, by nlinarith⟩
        nlinarith [mul_nonneg (by linarith : (0:ℝ) ≤ dy - ye) (by linarith : (0:ℝ) ≤ ox - x0),
          mul_nonneg (by linarith : (0:ℝ) ≤ ye - oy) (by linarith : (0:ℝ) ≤ dx - x0)]
      · refine Or.inl ⟨?_, by nlinarith⟩
        nlinarith [mul_nonneg (by linarith : (0:ℝ) ≤ ye - dy) (by linarith : (0:ℝ) ≤ ox - x0),
          mul_nonneg (by linarith : (0:ℝ) ≤ oy - ye) (by linarith : (0:ℝ) ≤ dx - x0)]
    have hc4 : ((x0 - ox) * (dy - oy) - (ye - oy) * (dx - ox)) /
        -((dy - oy) * (x1 - x0)) ≤ 1 := by
      rw [div_le_one_iff]
      rcases hcross with ⟨h1, h2⟩ | ⟨h1, h2⟩
      · refine Or.inr (Or.inr ⟨by nlinarith, ?_⟩)
        nlinarith [mul_nonneg (by linarith : (0:ℝ) ≤ dy - ye) (by linarith : (0:ℝ) ≤ x1 - ox),
          mul_nonneg (by linarith : (0:ℝ) ≤ ye - oy) (by linarith : (0:ℝ) ≤ x1 - dx)]
      · refine Or.inl ⟨by nlinarith, ?_⟩
        nlinarith [mul_nonneg (by linarith : (0:ℝ) ≤ ye - dy) (by linarith : (0:ℝ) ≤ x1 - ox),
          mul_nonneg (by linarith : (0:ℝ) ≤ oy - ye) (by linarith : (0:ℝ) ≤ x1 - dx)]
    rw [if_pos ⟨hc1, hc2, hc3, hc4⟩]
    exact ⟨_, rfl⟩

/-- A segment from a point `o` inside the vertical slab `[y0, y1]` and on or
left of the line `x = xe` to a point `d` inside the slab and strictly right
of the line (or the mirrored situation) meets the edge segment from
`(xe, y0)` to `(xe, y1)` in a single point. -/
theorem getLineSegmentIntersection_vertical (o d : Point ℝ) (xe y0 y1 : ℝ)
    (hy01 : y0 ≤ y1) (hoy : y0 ≤ o.y) (hoy2 : o.y ≤ y1) (hdy : y0 ≤ d.y) (hdy2 : d.y ≤ y1)
    (hcross : (o.x ≤ xe ∧ xe < d.x) ∨ (d.x < xe ∧ xe ≤ o.x)) :
    ∃ pt : Point ℝ,
      getLineSegmentIntersection o d ⟨xe, y0⟩ ⟨xe, y1⟩ = .point pt := by
  obtain ⟨ox, oy⟩ := o
  obtain ⟨dx, dy⟩ := d
  dsimp only at hoy hoy2 hdy hdy2 hcross
  have hAne : dx - ox ≠ 0 := by
    rcases hcross with ⟨h1, h2⟩ | ⟨h1, h2⟩
    · exact sub_ne_zero.mpr (by linarith)
    · exact sub_ne_zero.mpr (by linarith)
  rcases eq_or_lt_of_le hy01 with heq | hlt
  · subst heq
    have hoye : oy = y0 := le_antisymm hoy2 hoy
    have hdye : dy = y0 := le_antisymm hdy2 hdy
    subst hoye
    subst hdye
    simp only [getLineSegmentIntersection, vectorSubtraction, vectorAddition, multiplyByScalar,
      cross, dotProduct, sub_self, mul_zero, zero_mul, zero_sub, sub_zero, neg_zero, zero_add,
      add_zero, min_self, max_self, if_true]
    rw [if_neg (mul_ne_zero hAne hAne)]
    have ht0a : 0 ≤ (xe - ox) * (dx - ox) / ((dx - ox) * (dx - ox)) := by
      apply div_nonneg _ (mul_self_nonneg _)
      rcases hcross with ⟨h1, h2⟩ | ⟨h1, h2⟩ <;> nlinarith
    have ht0b : (xe - ox) * (dx - ox) / ((dx - ox) * (dx - ox)) ≤ 1 := by
      rw [div_le_one (by rcases hcross with ⟨h1, h2⟩ | ⟨h1, h2⟩ <;> nlinarith :
        (0 : ℝ) < (dx - ox) * (dx - ox))]
      rcases hcross with ⟨h1, h2⟩ | ⟨h1, h2⟩ <;> nlinarith
    rw [sup_eq_left.mpr ht0a, inf_eq_left.mpr ht0b]
    rw [if_neg (lt_irrefl _), if_pos rfl]
    exact ⟨_, rfl⟩
  · have hne : y1 - y0 ≠ 0 := sub_ne_zero.mpr (ne_of_gt hlt)
    simp only [getLineSegmentIntersection, vectorSubtraction, vectorAddition, multiplyByScalar,
      cross, dotProduct, sub_self, mul_zero, zero_mul, zero_sub, sub_zero]
    have hrxs : ¬((dx - ox) * (y1 - y0) = 0) := by
      simp only [mul_eq_zero, not_or]
      exact ⟨hAne, hne⟩
    rw [if_neg hrxs]
    have htval : (xe - ox) * (y1 - y0) / ((dx - ox) * (y1 - y0)) = (xe - ox) / (dx - ox) :=
      mul_div_mul_right _ _ hne
    rw [htval]
    have hc1 : 0 ≤ (xe - ox) / (dx - ox) := by
      rw [div_nonneg_iff]
      rcases hcross with ⟨h1, h2⟩ | ⟨h1, h2⟩
      · exact Or.inl ⟨by linarith, by linarith⟩
      · exact Or.inr ⟨by linarith, by linarith⟩
    have hc2 : (xe - ox) / (dx - ox) ≤ 1 := by
      rw [div_le_one_iff]
      rcases hcross with ⟨h1, h2⟩ | ⟨h1, h2⟩
      · exact Or.inl ⟨by linarith, by linarith⟩
      · exact Or.inr (Or.inr ⟨by linarith, by linarith⟩)
    have hc3 : 0 ≤ ((xe - ox) * (dy - oy) - (y0 - oy) * (dx - ox)) /
        ((dx - ox) * (y1 - y0)) := by
      rw [div_nonneg_iff]
      rcases hcross with ⟨h1, h2⟩ | ⟨h1, h2⟩
      · refine Or.inl ⟨?_, by nlinarith⟩
        nlinarith [mul_nonneg (by linarith : (0:ℝ) ≤ dx - xe) (by linarith : (0:ℝ) ≤ oy - y0),
          mul_nonneg (by linarith : (0:ℝ) ≤ xe - ox) (by linarith : (0:ℝ) ≤ dy - y0)]
      · refine Or.inr ⟨?_, by nlinarith⟩
        nlinarith [mul_nonneg (by linarith : (0:ℝ) ≤ xe - dx) (by linarith : (0:ℝ) ≤ oy - y0),
          mul_nonneg (by linarith : (0:ℝ) ≤ ox - xe) (by linarith : (0:ℝ) ≤ dy - y0)]
    have hc4 : ((xe - ox) * (dy - oy) - (y0 - oy) * (dx - ox)) /
        ((dx - ox) * (y1 - y0)) ≤ 1 := by
      rw [div_le_one_iff]
      rcases hcross with ⟨h1, h2⟩ | ⟨h1, h2⟩
      · refine Or.inl ⟨by nlinarith, ?_⟩
        nlinarith [mul_nonneg (by linarith : (0:ℝ) ≤ dx - xe) (by linarith : (0:ℝ) ≤ y1 - oy),
          mul_nonneg (by linarith : (0:ℝ) ≤ xe - ox) (by linarith : (0:ℝ) ≤ y1 - dy)]
      · refine Or.inr (Or.inr ⟨by nlinarith, ?_⟩)
        nlinarith [mul_nonneg (by linarith : (0:ℝ) ≤ xe - dx) (by linarith : (0:ℝ) ≤ y1 - oy),
          mul_nonneg (by linarith : (0:ℝ) ≤ ox - xe) (by linarith : (0:ℝ) ≤ y1 - dy)]
    rw [if_pos ⟨hc1, hc2, hc3, hc4⟩]
    exact ⟨_, rfl⟩

/-- Invariant of the `forEach` fold of `clampingEntireViewPort`: starting
from a state whose running maxima match its delta, the fold returns a delta
whose components dominate (in magnitude) the initial delta and every list
element, and are each drawn from the initial delta or the list. -/
theorem foldl_maxDiffStep_spec {K : Type} [LinearOrderedField K] :
    ∀ (l : List (Point K)) (st : K × K × Point K),
      st.1 = |st.2.2.x| → st.2.1 = |st.2.2.y| →
      ((l.foldl maxDiffStep st).1 = |(l.foldl maxDiffStep st).2.2.x| ∧
        (l.foldl maxDiffStep st).2.1 = |(l.foldl maxDiffStep st).2.2.y|) ∧
      (|st.2.2.x| ≤ |(l.foldl maxDiffStep st).2.2.x| ∧
        |st.2.2.y| ≤ |(l.foldl maxDiffStep st).2.2.y|) ∧
      (∀ p ∈ l, |p.x| ≤ |(l.foldl maxDiffStep st).2.2.x| ∧
        |p.y| ≤ |(l.foldl maxDiffStep st).2.2.y|) ∧
      ((l.foldl maxDiffStep st).2.2.x = st.2.2.x ∨
        ∃ p ∈ l, (l.foldl maxDiffStep st).2.2.x = p.x) ∧
      ((l.foldl maxDiffStep st).2.2.y = st.2.2.y ∨
        ∃ p ∈ l, (l.foldl maxDiffStep st).2.2.y = p.y) := by
  intro l
  induction l with
  | nil =>
    intro st h1 h2
    refine ⟨⟨h1, h2⟩, ⟨le_rfl, le_rfl⟩, by simp, Or.inl rfl, Or.inl rfl⟩
  | cons p t ih =>
    intro st h1 h2
    simp only [List.foldl_cons]
    have key : (maxDiffStep st p).1 = |(maxDiffStep st p).2.2.x| ∧
        (maxDiffStep st p).2.1 = |(maxDiffStep st p).2.2.y| ∧
        (|st.2.2.x| ≤ |(maxDiffStep st p).2.2.x| ∧ |p.x| ≤ |(maxDiffStep st p).2.2.x|) ∧
        (|st.2.2.y| ≤ |(maxDiffStep st p).2.2.y| ∧ |p.y| ≤ |(maxDiffStep st p).2.2.y|) ∧
        ((maxDiffStep st p).2.2.x = st.2.2.x ∨ (maxDiffStep st p).2.2.x = p.x) ∧
        ((maxDiffStep st p).2.2.y = st.2.2.y ∨ (maxDiffStep st p).2.2.y = p.y) := by
      simp only [maxDiffStep]
      split_ifs with ha hb hb
      · exact ⟨rfl, rfl, ⟨(h1.symm.trans_lt ha).le, le_rfl⟩,
          ⟨(h2.symm.trans_lt hb).le, le_rfl⟩, Or.inr rfl, Or.inr rfl⟩
      · exact ⟨rfl, h2, ⟨(h1.symm.trans_lt ha).le, le_rfl⟩,
          ⟨le_rfl, le_of_le_of_eq (not_lt.mp hb) h2⟩, Or.inr rfl, Or.inl rfl⟩
      · exact ⟨h1, rfl, ⟨le_rfl, le_of_le_of_eq (not_lt.mp ha) h1⟩,
          ⟨(h2.symm.trans_lt hb).le, le_rfl⟩, Or.inl rfl, Or.inr rfl⟩
      · exact ⟨h1, h2, ⟨le_rfl, le_of_le_of_eq (not_lt.mp ha) h1⟩,
          ⟨le_rfl, le_of_le_of_eq (not_lt.mp hb) h2⟩, Or.inl rfl, Or.inl rfl⟩
    obtain ⟨k1, k2, ⟨k3, k4⟩, ⟨k5, k6⟩, k7, k8⟩ := key
    obtain ⟨⟨i1, i2⟩, ⟨i3, i4⟩, i5, i6, i7⟩ := ih (maxDiffStep st p) k1 k2
    refine ⟨⟨i1, i2⟩, ⟨le_trans k3 i3, le_trans k5 i4⟩, ?_, ?_, ?_⟩
    · intro q hq
      rcases List.mem_cons.mp hq with rfl | hq2
      · exact ⟨le_trans k4 i3, le_trans k6 i4⟩
      · exact i5 q hq2
    · rcases i6 with hh | ⟨q, hq, hqe⟩
      · rcases k7 with hh2 | hh2
        · exact Or.inl (hh.trans hh2)
        · exact Or.inr ⟨p, List.mem_cons_self p t, hh.trans hh2⟩
      · exact Or.inr ⟨q, List.mem_cons_of_mem p hq, hqe⟩
    · rcases i7 with hh | ⟨q, hq, hqe⟩
      · rcases k8 with hh2 | hh2
        · exact Or.inl (hh.trans hh2)
        · exact Or.inr ⟨p, List.mem_cons_self p t, hh.trans hh2⟩
      · exact Or.inr ⟨q, List.mem_cons_of_mem p hq, hqe⟩

/-- Evaluation of the viewport-to-world transform at rotation `0`. -/
theorem transform_rot_zero (p c : Point ℝ) (z : ℝ) :
    transformViewPort2WorldSpaceWithCameraAttributes Real.cos Real.sin p c z 0 =
      ⟨p.x * (1 / z) + c.x, p.y * (1 / z) + c.y⟩ := by
  simp [transformViewPort2WorldSpaceWithCameraAttributes, rotateVector, multiplyByScalar,
    vectorAddition]

end AngleHelpers

/-! ### Claim theorems -/

/-- Claim C8: for every viewport width `w`, height `h` and position boundary
`b` with positive extent on both axes, `getMinZoomLevel w h b` equals
`max (w / (b.max.x - b.min.x)) (h / (b.max.y - b.min.y))`. -/
theorem getMinZoomLevel_eq_max (w h : ℝ) (b : PositionBoundary ℝ)
    (_hx : b.min.x < b.max.x) (_hy : b.min.y < b.max.y) :
    getMinZoomLevel w h b =
      max (w / (b.max.x - b.min.x)) (h / (b.max.y - b.min.y)) := by
  simp only [getMinZoomLevel]
  split_ifs with hgt
  · exact (max_eq_left hgt.le).symm
  · exact (max_eq_right (not_lt.mp hgt)).symm

/-- Claim C8, witness: the spec scenario
`getMinZoomLevel(500, 500, {min: (-1000,-1000), max: (1000,1000)}) = 0.25`. -/
theorem getMinZoomLevel_eq_max_witness :
    ((-1000 : ℝ) < 1000) ∧
      getMinZoomLevel (500 : ℝ) 500 ⟨⟨-1000, -1000⟩, ⟨1000, 1000⟩⟩ = 0.25 := by
  refine ⟨by norm_num, ?_⟩
  rw [getMinZoomLevel_eq_max 500 500 ⟨⟨-1000, -1000⟩, ⟨1000, 1000⟩⟩ (by norm_num) (by norm_num)]
  norm_num

/-- Claim C10: the constructor unconditionally initializes position to
`(0,0)`, zoom to `1` and rotation to `0`, regardless of the supplied
boundaries; when a boundary excludes that initial value the fresh camera
already violates it, with no check or clamp at construction. -/
theorem constructor_ignores_boundaries (w h : ℝ) (pb : PositionBoundary ℝ)
    (zb : ZoomLevelBoundary ℝ) :
    (mkCamera w h pb zb).position = ⟨0, 0⟩ ∧
    (mkCamera w h pb zb).zoomLevel = 1 ∧
    (mkCamera w h pb zb).rotation = 0 ∧
    (withinPositionBoundary (⟨0, 0⟩ : Point ℝ) pb = false →
      withinPositionBoundary (mkCamera w h pb zb).position pb = false) ∧
    (withinZoomLevelBoundary (1 : ℝ) zb = false →
      withinZoomLevelBoundary (mkCamera w h pb zb).zoomLevel zb = false) := by
  exact ⟨rfl, rfl, rfl, fun hp => hp, fun hz => hz⟩

/-- Claim C10, witness: with position boundary `[5,10]×[5,10]` and zoom
boundary `[2,3]`, the fresh camera state violates both. -/
theorem constructor_ignores_boundaries_witness :
    withinPositionBoundary
        (mkCamera (500 : ℝ) 500 ⟨⟨5, 5⟩, ⟨10, 10⟩⟩ ⟨2, 3⟩).position ⟨⟨5, 5⟩, ⟨10, 10⟩⟩ = false ∧
    withinZoomLevelBoundary
        (mkCamera (500 : ℝ) 500 ⟨⟨5, 5⟩, ⟨10, 10⟩⟩ ⟨2, 3⟩).zoomLevel ⟨2, 3⟩ = false := by
  have hp : withinPositionBoundary (⟨0, 0⟩ : Point ℝ) ⟨⟨5, 5⟩, ⟨10, 10⟩⟩ = false := by
    rw [withinPositionBoundary_eq_false]
    norm_num
  have hz : withinZoomLevelBoundary (1 : ℝ) ⟨2, 3⟩ = false := by
    rw [Bool.eq_false_iff, Ne, withinZoomLevelBoundary_iff]
    norm_num
  exact ⟨(constructor_ignores_boundaries 500 500 ⟨⟨5, 5⟩, ⟨10, 10⟩⟩ ⟨2, 3⟩).2.2.2.1 hp,
    (constructor_ignores_boundaries 500 500 ⟨⟨5, 5⟩, ⟨10, 10⟩⟩ ⟨2, 3⟩).2.2.2.2 hz⟩

/-- Claim C1: every accepted `setPosition(d)` call (one that fires a
notification) leaves the position within `positionBoundary`, and when
`limitEntireViewPort` is on, the four viewport corners transformed to world
space at the new position under the current zoom and rotation all lie within
`positionBoundary`. -/
theorem setPosition_accepted_within_boundary (cam : Camera ℝ) (d : Point ℝ)
    (h : ((cam.setPosition Real.cos Real.sin d).2).isSome = true) :
    withinPositionBoundary (cam.setPosition Real.cos Real.sin d).1.position
        cam.positionBoundary = true ∧
    (cam.limitEntireViewPort = true →
      viewPortWithinPositionBoundary Real.cos Real.sin cam.viewPortWidth cam.viewPortHeight
        (cam.setPosition Real.cos Real.sin d).1.position cam.zoomLevel cam.rotation
        cam.positionBoundary = true) := by
  unfold Camera.setPosition at h ⊢
  split_ifs at h ⊢ with h1 h2
  · simp at h
  · simp at h
  · refine ⟨?_, fun hl => ?_⟩
    · rcases Bool.eq_false_or_eq_true (withinPositionBoundary d cam.positionBoundary) with
        hw | hw
      · simpa using hw
      · exact absurd (by simp [hw]) h2
    · rcases Bool.eq_false_or_eq_true (viewPortWithinPositionBoundary Real.cos Real.sin
          cam.viewPortWidth cam.viewPortHeight d cam.zoomLevel cam.rotation
          cam.positionBoundary) with hv | hv
      · simpa using hv
      · exact absurd (by simp [hl, hv]) h1

/-- Claim C1, witness: a camera with `limitEntireViewPort` on accepts
`setPosition((100, 0))` and the conclusion holds there. -/
theorem setPosition_accepted_within_boundary_witness :
    withinPositionBoundary
        ((exampleCameraLimited ℝ).setPosition Real.cos Real.sin ⟨100, 0⟩).1.position
        (exampleCameraLimited ℝ).positionBoundary = true ∧
    ((exampleCameraLimited ℝ).limitEntireViewPort = true →
      viewPortWithinPositionBoundary Real.cos Real.sin (exampleCameraLimited ℝ).viewPortWidth
        (exampleCameraLimited ℝ).viewPortHeight
        ((exampleCameraLimited ℝ).setPosition Real.cos Real.sin ⟨100, 0⟩).1.position
        (exampleCameraLimited ℝ).zoomLevel (exampleCameraLimited ℝ).rotation
        (exampleCameraLimited ℝ).positionBoundary = true) := by
  apply setPosition_accepted_within_boundary
  have hv : viewPortWithinPositionBoundary Real.cos Real.sin 500 500 (⟨100, 0⟩ : Point ℝ) 1 0
      ⟨⟨-1000, -1000⟩, ⟨1000, 1000⟩⟩ = true := by
    simp only [viewPortWithinPositionBoundary, transform_rot_zero, Bool.and_eq_true,
      withinPositionBoundary_iff]
    norm_num
  have hw : withinPositionBoundary (⟨100, 0⟩ : Point ℝ) ⟨⟨-1000, -1000⟩, ⟨1000, 1000⟩⟩ = true := by
    rw [withinPositionBoundary_iff]
    norm_num
  show ((exampleCameraLimited ℝ).setPosition Real.cos Real.sin ⟨100, 0⟩).2.isSome = true
  unfold Camera.setPosition
  rw [if_neg (by simp [exampleCameraLimited, hv]), if_neg (by simp [exampleCameraLimited, hw])]
  rfl

/-- Claim C2: every mutator call whose target violates the active boundary is
a silent no-op: the returned camera state equals the original state and no
observer notification fires. -/
theorem rejected_mutator_is_silent_noop (cam : Camera ℝ) :
    (∀ d : Point ℝ,
      ((cam.limitEntireViewPort = true ∧
          viewPortWithinPositionBoundary Real.cos Real.sin cam.viewPortWidth cam.viewPortHeight
            d cam.zoomLevel cam.rotation cam.positionBoundary = false) ∨
        withinPositionBoundary d cam.positionBoundary = false) →
      cam.setPosition Real.cos Real.sin d = (cam, Option.none)) ∧
    (∀ z : ℝ, withinZoomLevelBoundary z cam.zoomLevelBoundary = false →
      cam.setZoomLevel z = (cam, Option.none)) ∧
    (∀ (r : ℝ) (b : RotationBoundary ℝ), cam.rotationBoundary = some b →
      rotationWithinBoundary Real.pi r b = false →
      cam.setRotation Real.pi r = (cam, Option.none)) := by
  refine ⟨fun d hd => ?_, fun z hz => ?_, fun r b hb hr => ?_⟩
  · unfold Camera.setPosition
    split_ifs with h1 h2
    · rfl
    · rfl
    · exfalso
      rcases hd with ⟨hl, hv⟩ | hw
      · exact h1 (by simp [hl, hv])
      · exact h2 (by simp [hw])
  · unfold Camera.setZoomLevel
    rw [if_pos (by simp [hz])]
  · unfold Camera.setRotation
    rw [hb]
    simp only [hr]
    rfl

/-- Claim C2, witness: a concrete camera (position boundary `±1000`, zoom
boundary `[1/10, 10]`, rotation boundary the arc `[0, π]`) rejects an
out-of-bounds position, zoom and rotation without state change or event. -/
theorem rejected_mutator_is_silent_noop_witness :
    (exampleCamera ℝ Real.pi).setPosition Real.cos Real.sin ⟨2000, 0⟩ =
      (exampleCamera ℝ Real.pi, Option.none) ∧
    (exampleCamera ℝ Real.pi).setZoomLevel 20 = (exampleCamera ℝ Real.pi, Option.none) ∧
    (exampleCamera ℝ Real.pi).setRotation Real.pi (3 * Real.pi / 2) =
      (exampleCamera ℝ Real.pi, Option.none) := by
  have hπ := Real.pi_pos
  have hc := rejected_mutator_is_silent_noop (exampleCamera ℝ Real.pi)
  refine ⟨hc.1 ⟨2000, 0⟩ (Or.inr ?_), hc.2.1 20 ?_, hc.2.2 (3 * Real.pi / 2)
    ⟨0, Real.pi, true, true⟩ rfl ?_⟩
  · rw [withinPositionBoundary_eq_false]
    show ¬((2000 : ℝ) ≤ 1000 ∧ _ ∧ _ ∧ _)
    norm_num
  · rw [Bool.eq_false_iff, Ne, withinZoomLevelBoundary_iff]
    show ¬((20 : ℝ) ≤ 10 ∧ _ ≤ _)
    norm_num
  · have h32 : normalizeAngle Real.pi (3 * Real.pi / 2) = 3 * Real.pi / 2 :=
      normalizeAngle_eq_self (by linarith) (by linarith)
    rw [rotationWithinBoundary_pos_eval _ _ rfl (by rw [h32]; linarith)
      (by simpa using hπ.le)]
    rw [h32]
    simp only [decide_eq_false_iff_not, ge_iff_le, not_le]
    linarith

/-- Claim C6: for every point `p` and every camera with positive zoom level
(any rotation, any position), the composed transforms give the identity:
`transformWorldSpace2ViewPort (transformViewPort2WorldSpace p) = p` (exactly,
over real arithmetic). -/
theorem transform_roundTrip_identity (cam : Camera ℝ) (p : Point ℝ)
    (hz : 0 < cam.zoomLevel) :
    cam.transformWorldSpace2ViewPort Real.cos Real.sin
      (cam.transformViewPort2WorldSpace Real.cos Real.sin p) = p := by
  have hz' : cam.zoomLevel ≠ 0 := ne_of_gt hz
  have hcs := Real.sin_sq_add_cos_sq cam.rotation
  simp only [Camera.transformWorldSpace2ViewPort, Camera.transformViewPort2WorldSpace,
    transformViewPort2WorldSpaceWithCameraAttributes, rotateVector, multiplyByScalar,
    vectorAddition, vectorSubtraction, Real.cos_neg, Real.sin_neg]
  ext
  · show (Real.cos cam.rotation * _ - -Real.sin cam.rotation * _) = p.x
    field_simp
    linear_combination p.x * hcs
  · show (-Real.sin cam.rotation * _ + Real.cos cam.rotation * _) = p.y
    field_simp
    linear_combination p.y * hcs

/-- Claim C6, witness: the round trip at a concrete camera (zoom `1`) and
point `(3, 4)`. -/
theorem transform_roundTrip_identity_witness :
    (0 : ℝ) < (exampleCameraLimited ℝ).zoomLevel ∧
    (exampleCameraLimited ℝ).transformWorldSpace2ViewPort Real.cos Real.sin
      ((exampleCameraLimited ℝ).transformViewPort2WorldSpace Real.cos Real.sin ⟨3, 4⟩) =
        ⟨3, 4⟩ :=
  ⟨by norm_num [exampleCameraLimited],
   transform_roundTrip_identity _ _ (by norm_num [exampleCameraLimited])⟩

/-- Claim C3, code-bug evidence: the rotation boundary setter stores the raw
argument, not the normalized copy it computes.  For the boundary with
`start = -1` the stored start is `-1`, which is outside `[0, 2π)`, whereas
normalization (what the spec prescribes) would store `2π - 1`. -/
theorem rotationBoundary_setter_stores_unnormalized :
    ((exampleCameraLimited ℝ).setRotationBoundary Real.pi ⟨-1, 1, true, true⟩).rotationBoundary =
      some ⟨-1, 1, true, true⟩ ∧
    ¬(0 ≤ (-1 : ℝ)) ∧
    normalizeAngle Real.pi (-1) = 2 * Real.pi - 1 := by
  have hπ := Real.pi_pos
  have h2π : (1 : ℝ) < 2 * Real.pi := by nlinarith [Real.pi_gt_three]
  refine ⟨rfl, by norm_num, ?_⟩
  simp only [normalizeAngle]
  rw [jsMod_eq_self (by linarith) (by linarith) (by linarith)]
  rw [if_neg (by norm_num)]
  ring

/-- Claim C4, counterexample: for the boundary `{start: -π, end: 0,
positiveDirection: true}` (not normalized to `[0, 2π)`) and angle `π`,
`rotationWithinBoundary(clampRotation(π, b), b)` is `false`: the claim as
stated fails for boundaries with angles outside `[0, 2π)`. -/
theorem clampRotation_escapes_unnormalized_boundary :
    rotationWithinBoundary Real.pi
        (clampRotation Real.pi Real.pi ⟨-Real.pi, 0, true, true⟩)
        ⟨-Real.pi, 0, true, true⟩ = false := by
  have hπ := Real.pi_pos
  have hnπ : normalizeAngle Real.pi Real.pi = Real.pi :=
    normalizeAngle_eq_self hπ.le (by linarith)
  have hnneg : normalizeAngle Real.pi (-Real.pi) = Real.pi := by
    simp only [normalizeAngle]
    rw [jsMod_eq_self (by linarith) (by linarith) (by linarith)]
    rw [if_neg (by push_neg; linarith)]
    ring
  have hzero : normalizeAngle Real.pi 0 = 0 := normalizeAngle_eq_self le_rfl (by linarith)
  have hnotin : ∀ x : ℝ, normalizeAngle Real.pi x = Real.pi →
      rotationWithinBoundary Real.pi x ⟨-Real.pi, 0, true, true⟩ = false := by
    intro x hx
    simp only [rotationWithinBoundary, hx, not_true_eq_false, false_and, if_false]
    rw [if_neg (by linarith : ¬(Real.pi - -Real.pi < 0))]
    rw [if_neg (by linarith : ¬((0 : ℝ) - -Real.pi < 0))]
    simp only [decide_eq_false_iff_not, ge_iff_le, not_le]
    linarith
  have hclamp : clampRotation Real.pi Real.pi ⟨-Real.pi, 0, true, true⟩ = -Real.pi := by
    have hspan1 : angleSpan Real.pi (-Real.pi) Real.pi = 0 := by
      simp only [angleSpan, hnneg, hnπ, sub_self]
      simp [hπ.le]
    have hspan2 : angleSpan Real.pi 0 Real.pi = Real.pi := by
      simp only [angleSpan, hzero, hnπ, sub_zero]
      rw [if_pos (le_of_eq (abs_of_nonneg hπ.le))]
    simp only [clampRotation, hnotin Real.pi hnπ, Bool.false_eq_true, if_false, hspan1, hspan2]
    rw [if_pos (by rw [abs_zero, abs_of_nonneg hπ.le]; exact hπ)]
  rw [hclamp]
  exact hnotin (-Real.pi) hnneg

/-- Claim C4, amended: for every angle `a` and every rotation boundary whose
`start` and `end` lie in `[0, 2π)` (the normalized form the setter is meant
to establish), `rotationWithinBoundary(clampRotation(a, b), b)` is true;
consequently, for a camera holding such a boundary, `setRotationBy` always
results in an accepted `setRotation` (a notification always fires). -/
theorem clampRotation_within_boundary_of_normalized (a : ℝ) (b : RotationBoundary ℝ)
    (hs0 : 0 ≤ b.start) (hs1 : b.start < 2 * Real.pi)
    (he0 : 0 ≤ b.endAngle) (he1 : b.endAngle < 2 * Real.pi) :
    rotationWithinBoundary Real.pi (clampRotation Real.pi a b) b = true ∧
    ∀ cam : Camera ℝ, cam.rotationBoundary = some b →
      ∀ δ : ℝ, ((cam.setRotationBy Real.pi δ).2).isSome = true := by
  have main : ∀ x : ℝ, rotationWithinBoundary Real.pi (clampRotation Real.pi x b) b = true := by
    intro x
    simp only [clampRotation]
    split_ifs with h hlt htie
    · exact h
    · exact rotationWithinBoundary_start b hs0 hs1 he0 he1
    · exact rotationWithinBoundary_start b hs0 hs1 he0 he1
    · exact rotationWithinBoundary_endAngle b he0 he1
  refine ⟨main a, fun cam hb δ => ?_⟩
  simp only [Camera.setRotationBy, hb]
  simp only [Camera.setRotation, hb]
  rw [if_neg (by simp [main (normalizeAngle Real.pi (cam.rotation + δ))])]
  rfl

/-- Claim C4, witness: the arc `[0, π]` with angle `3π/2`, and a camera
holding that arc on which `setRotationBy` fires a notification. -/
theorem clampRotation_within_boundary_of_normalized_witness :
    rotationWithinBoundary Real.pi
        (clampRotation Real.pi (3 * Real.pi / 2) ⟨0, Real.pi, true, true⟩)
        ⟨0, Real.pi, true, true⟩ = true ∧
    ((exampleCamera ℝ Real.pi).setRotationBy Real.pi 1).2.isSome = true := by
  have hπ := Real.pi_pos
  have h := clampRotation_within_boundary_of_normalized (3 * Real.pi / 2)
    ⟨0, Real.pi, true, true⟩ le_rfl (by show (0 : ℝ) < 2 * Real.pi; linarith) hπ.le
    (by show Real.pi < 2 * Real.pi; linarith)
  exact ⟨h.1, h.2 (exampleCamera ℝ Real.pi) rfl 1⟩

/-- Claim C9: the whole-viewport containment predicate is not preserved by
`setZoomLevel` or `setRotation` even with `limitEntireViewPort` on: from a
state whose four transformed corners lie within the position boundary, an
accepted zoom-out and an accepted rotation each produce a state with a
transformed corner outside the boundary. -/
theorem viewport_containment_not_preserved_by_zoom_or_rotation :
    viewPortWithinPositionBoundary Real.cos Real.sin (exampleCameraTight ℝ).viewPortWidth
      (exampleCameraTight ℝ).viewPortHeight (exampleCameraTight ℝ).position
      (exampleCameraTight ℝ).zoomLevel (exampleCameraTight ℝ).rotation
      (exampleCameraTight ℝ).positionBoundary = true ∧
    (exampleCameraTight ℝ).limitEntireViewPort = true ∧
    ((exampleCameraTight ℝ).setZoomLevel (1/10)).2.isSome = true ∧
    viewPortWithinPositionBoundary Real.cos Real.sin (exampleCameraTight ℝ).viewPortWidth
      (exampleCameraTight ℝ).viewPortHeight
      ((exampleCameraTight ℝ).setZoomLevel (1/10)).1.position
      ((exampleCameraTight ℝ).setZoomLevel (1/10)).1.zoomLevel
      ((exampleCameraTight ℝ).setZoomLevel (1/10)).1.rotation
      (exampleCameraTight ℝ).positionBoundary = false ∧
    ((exampleCameraTight ℝ).setRotation Real.pi (Real.pi / 4)).2.isSome = true ∧
    viewPortWithinPositionBoundary Real.cos Real.sin (exampleCameraTight ℝ).viewPortWidth
      (exampleCameraTight ℝ).viewPortHeight
      ((exampleCameraTight ℝ).setRotation Real.pi (Real.pi / 4)).1.position
      ((exampleCameraTight ℝ).setRotation Real.pi (Real.pi / 4)).1.zoomLevel
      ((exampleCameraTight ℝ).setRotation Real.pi (Real.pi / 4)).1.rotation
      (exampleCameraTight ℝ).positionBoundary = false := by
  have hπ := Real.pi_pos
  have hwz : withinZoomLevelBoundary ((10 : ℝ)⁻¹) (⟨(10 : ℝ)⁻¹, 10⟩ : ZoomLevelBoundary ℝ) =
      true := by
    rw [withinZoomLevelBoundary_iff]
    norm_num
  have e1 : (exampleCameraTight ℝ).setZoomLevel (1/10) =
      (⟨⟨0, 0⟩, 1/10, 0, ⟨⟨-300, -300⟩, ⟨300, 300⟩⟩, ⟨1/10, 10⟩, Option.none, 500, 500, true⟩,
        some (.zoom 1 (1/10) ⟨⟨0, 0⟩, 1/10, 0⟩)) := by
    simp only [Camera.setZoomLevel, exampleCameraTight]
    rw [if_neg (by simp [hwz])]
  have hquarter : normalizeAngle Real.pi (Real.pi / 4) = Real.pi / 4 :=
    normalizeAngle_eq_self (by linarith) (by linarith)
  have e2 : (exampleCameraTight ℝ).setRotation Real.pi (Real.pi / 4) =
      (⟨⟨0, 0⟩, 1, Real.pi / 4, ⟨⟨-300, -300⟩, ⟨300, 300⟩⟩, ⟨1/10, 10⟩, Option.none,
          500, 500, true⟩,
        some (.rotate 0 (Real.pi / 4) ⟨⟨0, 0⟩, 1, Real.pi / 4⟩)) := by
    simp only [Camera.setRotation, exampleCameraTight, hquarter]
  have f0 : viewPortWithinPositionBoundary Real.cos Real.sin 500 500 (⟨0, 0⟩ : Point ℝ) 1 0
      ⟨⟨-300, -300⟩, ⟨300, 300⟩⟩ = true := by
    simp only [viewPortWithinPositionBoundary, transform_rot_zero, Bool.and_eq_true,
      withinPositionBoundary_iff]
    norm_num
  have f1 : viewPortWithinPositionBoundary Real.cos Real.sin 500 500 (⟨0, 0⟩ : Point ℝ) (1/10) 0
      ⟨⟨-300, -300⟩, ⟨300, 300⟩⟩ = false := by
    refine Bool.eq_false_iff.mpr fun hcon => ?_
    simp only [viewPortWithinPositionBoundary, transform_rot_zero, Bool.and_eq_true,
      withinPositionBoundary_iff] at hcon
    norm_num at hcon
  have f2 : viewPortWithinPositionBoundary Real.cos Real.sin 500 500 (⟨0, 0⟩ : Point ℝ) 1
      (Real.pi / 4) ⟨⟨-300, -300⟩, ⟨300, 300⟩⟩ = false := by
    refine Bool.eq_false_iff.mpr fun hcon => ?_
    simp only [viewPortWithinPositionBoundary, transformViewPort2WorldSpaceWithCameraAttributes,
      rotateVector, multiplyByScalar, vectorAddition, Bool.and_eq_true,
      withinPositionBoundary_iff, Real.cos_pi_div_four, Real.sin_pi_div_four] at hcon
    obtain ⟨⟨⟨⟨_, hx2, _, _⟩, _⟩, _⟩, _⟩ := hcon
    have hs2 : Real.sqrt 2 * Real.sqrt 2 = 2 := Real.mul_self_sqrt (by norm_num)
    have hs0 : 0 ≤ Real.sqrt 2 := Real.sqrt_nonneg 2
    nlinarith [hx2]
  refine ⟨f0, rfl, ?_, ?_, ?_, ?_⟩
  · rw [e1]; rfl
  · rw [e1]; exact f1
  · rw [e2]; rfl
  · rw [e2]; exact f2

/-- Claim C7: when the four transformed viewport corners all lie within the
position boundary, `clampingEntireViewPort` returns the target unchanged;
otherwise it returns the target translated by a single delta whose `x`
component is, independently per axis, a clamped-minus-original corner
difference of largest magnitude among the four corners (and likewise for
`y`). -/
theorem clampingEntireViewPort_delta_spec (w h : ℝ) (target : Point ℝ) (rot zoom : ℝ)
    (b : PositionBoundary ℝ) :
    (viewPortWithinPositionBoundary Real.cos Real.sin w h target zoom rot b = true →
      clampingEntireViewPort Real.cos Real.sin w h target rot zoom b = target) ∧
    (viewPortWithinPositionBoundary Real.cos Real.sin w h target zoom rot b = false →
      ∃ d : Point ℝ,
        clampingEntireViewPort Real.cos Real.sin w h target rot zoom b =
          vectorAddition d target ∧
        (∀ p ∈ cornerDiffs Real.cos Real.sin w h target rot zoom b,
          |p.x| ≤ |d.x| ∧ |p.y| ≤ |d.y|) ∧
        (∃ p ∈ cornerDiffs Real.cos Real.sin w h target rot zoom b, d.x = p.x) ∧
        (∃ q ∈ cornerDiffs Real.cos Real.sin w h target rot zoom b, d.y = q.y)) := by
  constructor
  · intro hin
    simp only [clampingEntireViewPort]
    rw [if_pos hin]
  · intro hviol
    simp only [clampingEntireViewPort]
    rw [if_neg (by simp [hviol])]
    have hmem : (cornerDiffs Real.cos Real.sin w h target rot zoom b).headI ∈
        cornerDiffs Real.cos Real.sin w h target rot zoom b := by
      simp [cornerDiffs]
    obtain ⟨⟨j1, j2⟩, ⟨j3, j4⟩, j5, j6, j7⟩ :=
      foldl_maxDiffStep_spec (cornerDiffs Real.cos Real.sin w h target rot zoom b)
        (|(cornerDiffs Real.cos Real.sin w h target rot zoom b).headI.x|,
          |(cornerDiffs Real.cos Real.sin w h target rot zoom b).headI.y|,
          (cornerDiffs Real.cos Real.sin w h target rot zoom b).headI) rfl rfl
    refine ⟨_, rfl, j5, ?_, ?_⟩
    · rcases j6 with hh | hh
      · exact ⟨(cornerDiffs Real.cos Real.sin w h target rot zoom b).headI, hmem, hh⟩
      · exact hh
    · rcases j7 with hh | hh
      · exact ⟨(cornerDiffs Real.cos Real.sin w h target rot zoom b).headI, hmem, hh⟩
      · exact hh

/-- Claim C7, witness: target `(900, 0)` with the default `±1000` boundary,
rotation `0`, zoom `1`, viewport `500×500` violates containment, and the
clamped result is the target translated by a dominant corner delta. -/
theorem clampingEntireViewPort_delta_spec_witness :
    ∃ d : Point ℝ,
      clampingEntireViewPort Real.cos Real.sin 500 500 ⟨900, 0⟩ 0 1
          ⟨⟨-1000, -1000⟩, ⟨1000, 1000⟩⟩ = vectorAddition d ⟨900, 0⟩ ∧
      (∀ p ∈ cornerDiffs Real.cos Real.sin 500 500 ⟨900, 0⟩ 0 1 ⟨⟨-1000, -1000⟩, ⟨1000, 1000⟩⟩,
        |p.x| ≤ |d.x| ∧ |p.y| ≤ |d.y|) ∧
      (∃ p ∈ cornerDiffs Real.cos Real.sin 500 500 ⟨900, 0⟩ 0 1 ⟨⟨-1000, -1000⟩, ⟨1000, 1000⟩⟩,
        d.x = p.x) ∧
      (∃ q ∈ cornerDiffs Real.cos Real.sin 500 500 ⟨900, 0⟩ 0 1 ⟨⟨-1000, -1000⟩, ⟨1000, 1000⟩⟩,
        d.y = q.y) := by
  apply (clampingEntireViewPort_delta_spec 500 500 ⟨900, 0⟩ 0 1
    ⟨⟨-1000, -1000⟩, ⟨1000, 1000⟩⟩).2
  refine Bool.eq_false_iff.mpr fun hcon => ?_
  simp only [viewPortWithinPositionBoundary, transform_rot_zero, Bool.and_eq_true,
    withinPositionBoundary_iff] at hcon
  norm_num at hcon

/-- Claim C5: when the origin lies within the position boundary and the
destination does not (with `min ≤ max` per axis), `clampingV2` never reaches
its error branch: it returns the corresponding boundary corner when two
adjacent edges are exceeded simultaneously, and otherwise the intersection
of the segment `origin → destination` with the single exceeded edge. -/
theorem clampingV2_succeeds_from_inside_origin (origin destination : Point ℝ)
    (b : PositionBoundary ℝ)
    (hin : withinPositionBoundary origin b = true)
    (hout : withinPositionBoundary destination b = false)
    (hx : b.min.x ≤ b.max.x) (hy : b.min.y ≤ b.max.y) :
    (∃ p, clampingV2 origin destination b = some p) ∧
    (destination.y > b.max.y → destination.x > b.max.x →
      clampingV2 origin destination b = some ⟨b.max.x, b.max.y⟩) ∧
    (destination.y > b.max.y → destination.x < b.min.x →
      clampingV2 origin destination b = some ⟨b.min.x, b.max.y⟩) ∧
    (destination.y < b.min.y → destination.x > b.max.x →
      clampingV2 origin destination b = some ⟨b.max.x, b.min.y⟩) ∧
    (destination.y < b.min.y → destination.x < b.min.x →
      clampingV2 origin destination b = some ⟨b.min.x, b.min.y⟩) := by
  obtain ⟨ho1, ho2, ho3, ho4⟩ := withinPositionBoundary_iff.mp hin
  simp only [clampingV2]
  rw [if_neg (by simp [hout])]
  refine ⟨?_, ?_, ?_, ?_, ?_⟩
  · -- the error branch is unreachable
    by_cases hT : destination.y > b.max.y
    · by_cases hR : destination.x > b.max.x
      · exact ⟨⟨b.max.x, b.max.y⟩, by rw [if_pos ⟨hT, hR⟩]⟩
      · by_cases hL : destination.x < b.min.x
        · exact ⟨⟨b.min.x, b.max.y⟩, by
            rw [if_neg (by rintro ⟨_, hc⟩; exact hR hc), if_pos ⟨hT, hL⟩]⟩
        · obtain ⟨pt, hpt⟩ := getLineSegmentIntersection_horizontal origin destination
            b.min.x b.max.x b.max.y hx ho2 ho1 (not_lt.mp hL) (not_lt.mp hR)
            (Or.inl ⟨ho3, hT⟩)
          refine ⟨pt, ?_⟩
          rw [if_neg (by rintro ⟨_, hc⟩; exact hR hc),
            if_neg (by rintro ⟨_, hc⟩; exact hL hc),
            if_neg (by rintro ⟨hc, _⟩; linarith),
            if_neg (by rintro ⟨hc, _⟩; linarith),
            if_pos hT]
          dsimp only
          rw [hpt]
    · by_cases hB : destination.y < b.min.y
      · by_cases hR : destination.x > b.max.x
        · exact ⟨⟨b.max.x, b.min.y⟩, by
            rw [if_neg (by rintro ⟨hc, _⟩; exact hT hc),
              if_neg (by rintro ⟨hc, _⟩; exact hT hc), if_pos ⟨hB, hR⟩]⟩
        · by_cases hL : destination.x < b.min.x
          · exact ⟨⟨b.min.x, b.min.y⟩, by
              rw [if_neg (by rintro ⟨hc, _⟩; exact hT hc),
                if_neg (by rintro ⟨hc, _⟩; exact hT hc),
                if_neg (by rintro ⟨_, hc⟩; exact hR hc), if_pos ⟨hB, hL⟩]⟩
          · obtain ⟨pt, hpt⟩ := getLineSegmentIntersection_horizontal origin destination
              b.min.x b.max.x b.min.y hx ho2 ho1 (not_lt.mp hL) (not_lt.mp hR)
              (Or.inr ⟨hB, ho4⟩)
            refine ⟨pt, ?_⟩
            rw [if_neg (by rintro ⟨hc, _⟩; exact hT hc),
              if_neg (by rintro ⟨hc, _⟩; exact hT hc),
              if_neg (by rintro ⟨_, hc⟩; exact hR hc),
              if_neg (by rintro ⟨_, hc⟩; exact hL hc),
              if_neg hT, if_pos hB]
            dsimp only
            rw [hpt]
      · by_cases hL : destination.x < b.min.x
        · obtain ⟨pt, hpt⟩ := getLineSegmentIntersection_vertical origin destination
            b.min.x b.min.y b.max.y hy ho4 ho3 (not_lt.mp hB) (not_lt.mp hT)
            (Or.inr ⟨hL, ho2⟩)
          refine ⟨pt, ?_⟩
          rw [if_neg (by rintro ⟨hc, _⟩; exact hT hc),
            if_neg (by rintro ⟨hc, _⟩; exact hT hc),
            if_neg (by rintro ⟨hc, _⟩; exact hB hc),
            if_neg (by rintro ⟨hc, _⟩; exact hB hc),
            if_neg hT, if_neg hB, if_pos hL]
          dsimp only
          rw [hpt]
        · by_cases hR : destination.x > b.max.x
          · obtain ⟨pt, hpt⟩ := getLineSegmentIntersection_vertical origin destination
              b.max.x b.min.y b.max.y hy ho4 ho3 (not_lt.mp hB) (not_lt.mp hT)
              (Or.inl ⟨ho1, hR⟩)
            refine ⟨pt, ?_⟩
            rw [if_neg (by rintro ⟨hc, _⟩; exact hT hc),
              if_neg (by rintro ⟨hc, _⟩; exact hT hc),
              if_neg (by rintro ⟨hc, _⟩; exact hB hc),
              if_neg (by rintro ⟨hc, _⟩; exact hB hc),
              if_neg hT, if_neg hB, if_neg hL]
            dsimp only
            rw [hpt]
          · exfalso
            have hwin : withinPositionBoundary destination b = true :=
              withinPositionBoundary_iff.mpr
                ⟨not_lt.mp hR, not_lt.mp hL, not_lt.mp hT, not_lt.mp hB⟩
            rw [hwin] at hout
            exact absurd hout (by simp)
  · intro h1 h2
    rw [if_pos ⟨h1, h2⟩]
  · intro h1 h2
    rw [if_neg (by rintro ⟨_, hc⟩; linarith), if_pos ⟨h1, h2⟩]
  · intro h1 h2
    rw [if_neg (by rintro ⟨hc, _⟩; linarith), if_neg (by rintro ⟨hc, _⟩; linarith),
      if_pos ⟨h1, h2⟩]
  · intro h1 h2
    rw [if_neg (by rintro ⟨hc, _⟩; linarith), if_neg (by rintro ⟨hc, _⟩; linarith),
      if_neg (by rintro ⟨_, hc⟩; linarith), if_pos ⟨h1, h2⟩]

/-- Claim C5, witness: origin `(0,0)` inside the `±10` box, destination
`(0, 20)` beyond the top edge; `clampingV2` succeeds. -/
theorem clampingV2_succeeds_from_inside_origin_witness :
    withinPositionBoundary (⟨0, 0⟩ : Point ℝ) ⟨⟨-10, -10⟩, ⟨10, 10⟩⟩ = true ∧
    withinPositionBoundary (⟨0, 20⟩ : Point ℝ) ⟨⟨-10, -10⟩, ⟨10, 10⟩⟩ = false ∧
    ∃ p, clampingV2 (⟨0, 0⟩ : Point ℝ) ⟨0, 20⟩ ⟨⟨-10, -10⟩, ⟨10, 10⟩⟩ = some p := by
  have h1 : withinPositionBoundary (⟨0, 0⟩ : Point ℝ) ⟨⟨-10, -10⟩, ⟨10, 10⟩⟩ = true := by
    rw [withinPositionBoundary_iff]
    norm_num
  have h2 : withinPositionBoundary (⟨0, 20⟩ : Point ℝ) ⟨⟨-10, -10⟩, ⟨10, 10⟩⟩ = false := by
    rw [withinPositionBoundary_eq_false]
    norm_num
  exact ⟨h1, h2,
    (clampingV2_succeeds_from_inside_origin ⟨0, 0⟩ ⟨0, 20⟩ ⟨⟨-10, -10⟩, ⟨10, 10⟩⟩ h1 h2
      (by norm_num) (by norm_num)).1⟩

end CameraSpec
